import Mathlib

/-!
# discordgo: credential resolution and session bootstrap

A shallow embedding of `discord.go` (`NewWithToken`, `createEmptySession`,
`NewWithPassword`, `NewWithPasswordAndMFA`) together with the properties of
these entry points.

Modelling conventions.

* A Go `string` is read as the sequence of Unicode code points it encodes
  (`GoString := List Char`); strings are taken to be well-formed UTF-8, so
  `string([]rune(s)[3:])` is `s.drop 3`.
* A Go `error` / pointer result is an `Option`; `none` is `nil`.
* Package members that `discord.go` uses but does not define (the intent
  constants, `runtime.GOOS`, the Unicode lower-case table, `Session.Login`,
  `Session.totp`) are parameters of the embedding.
-/

namespace Discordgo

/-! ## Strings -/

/-- A Go string as the sequence of the code points it encodes. -/
abbrev GoString := List Char

/-- Go `unicode.IsSpace`: the Latin-1 white space characters
`'\t' '\n' '\v' '\f' '\r' ' ' U+0085 U+00A0`, and outside Latin-1 the code points
with the Unicode `White_Space` property. -/
def IsSpace (r : Char) : Bool :=
  let n := r.toNat
  if n ≤ 0xFF then
    n == 0x09 || n == 0x0A || n == 0x0B || n == 0x0C || n == 0x0D || n == 0x20
      || n == 0x85 || n == 0xA0
  else
    n == 0x1680 || (0x2000 ≤ n && n ≤ 0x200A) || n == 0x2028 || n == 0x2029
      || n == 0x202F || n == 0x205F || n == 0x3000

/-- Go `strings.TrimLeftFunc(s, unicode.IsSpace)`. -/
def TrimLeftSpace (s : GoString) : GoString :=
  s.dropWhile IsSpace

/-- Go `strings.TrimRightFunc(s, unicode.IsSpace)`. -/
def TrimRightSpace (s : GoString) : GoString :=
  s.rdropWhile IsSpace

/-- Go `strings.TrimSpace`: all leading and trailing white space removed. -/
def TrimSpace (s : GoString) : GoString :=
  TrimRightSpace (TrimLeftSpace s)

/-- Go `strings.HasPrefix(s, p)`. -/
def HasPrefix (s p : GoString) : Bool :=
  p.isPrefixOf s

/-- The part of Go's Unicode lower-case table that lies outside ASCII
(`unicode.To(unicode.LowerCase, r)` for `r > unicode.MaxASCII`).  The table is
not reproduced; what is recorded of it is that the only ASCII letters it
produces are `i` (from U+0130) and `k` (from U+212A). -/
structure CaseTable where
  lower : Char → Char
  lower_ascii : ∀ r : Char, 128 ≤ r.toNat → (lower r).toNat < 128 →
    lower r = 'i' ∨ lower r = 'k'

/-- Go `unicode.ToLower`. -/
def unicodeToLower (tbl : CaseTable) (r : Char) : Char :=
  if r.toNat ≤ 0x7F then
    if 'A'.toNat ≤ r.toNat ∧ r.toNat ≤ 'Z'.toNat then Char.ofNat (r.toNat + 32) else r
  else
    tbl.lower r

/-- Go `strings.ToLower`: `unicode.ToLower` applied to every code point. -/
def ToLower (tbl : CaseTable) (s : GoString) : GoString :=
  s.map (unicodeToLower tbl)

/-- A case table that leaves every code point outside ASCII unchanged; used to
evaluate the embedding on concrete inputs. -/
def asciiCaseTable : CaseTable where
  lower := fun r => r
  lower_ascii := fun _ h1 h2 => absurd h2 (Nat.not_lt.mpr h1)

/-! ## Errors -/

/-- Values of Go's `error` interface that the entry points handle. -/
inductive GoError where
  /-- the package variable `ErrMFA` -/
  | ErrMFA
  /-- a value built by `fmt.Errorf` with the given message -/
  | Errorf (msg : GoString)
  /-- an error value produced by a collaborator (`Login`, `totp`) -/
  | Remote (msg : GoString)
  deriving DecidableEq, Repr

/-- The `Error()` method. -/
def GoError.Error : GoError → GoString
  | .ErrMFA => "account has 2FA enabled".toList
  | .Errorf msg => msg
  | .Remote msg => msg

/-- What the verb `%v` prints for an `error` operand: `<nil>` for the nil
interface value, the `Error()` text otherwise. -/
def fmtV : Option GoError → GoString
  | none => "<nil>".toList
  | some e => e.Error

/-! ## Data model -/

/-- The `Intent` bit mask (`type Intent int`). -/
abbrev Intent := Int

/-- Go `MakeIntent`: a pointer to a copy of the given intents. -/
def MakeIntent (intents : Intent) : Option Intent :=
  some intents

/-- The client properties of the identify payload. -/
structure IdentifyProperties where
  OS : GoString
  Browser : GoString
  deriving DecidableEq, Repr

/-- The identify payload embedded in a session. -/
structure Identify where
  Token : GoString
  Properties : IdentifyProperties
  Compress : Bool
  LargeThreshold : Int
  GuildSubscriptions : Bool
  Intents : Option Intent
  deriving DecidableEq, Repr

/-- The fields of `Session` that `discord.go` reads or writes.  `State`,
`Ratelimiter` are handles of freshly built collaborator objects, `sequence`
is the value behind the `*int64`, `ClientTimeout` is the `http.Client`
timeout in seconds. -/
structure Session where
  Token : GoString
  MFA : Bool
  State : Nat
  Ratelimiter : Nat
  StateEnabled : Bool
  Compress : Bool
  ShouldReconnectOnError : Bool
  ShardID : Int
  ShardCount : Int
  MaxRestRetries : Int
  UserAgent : GoString
  ClientTimeout : Nat
  sequence : Int
  LastHeartbeatAck : Nat
  Identify : Identify
  deriving DecidableEq, Repr

/-- The value `Login` returns next to its error; `discord.go` reads only the
ticket. -/
structure LoginInfo where
  Ticket : GoString
  deriving DecidableEq, Repr

/-- What the package and its host provide to `discord.go`: the intent
constants, `runtime.GOOS`, the Unicode case table, the constructors
`NewState()` and `NewRatelimiter()` and the clock `time.Now().UTC()`. -/
structure Host where
  IntentsAll : Intent
  IntentsAllWithoutPrivileged : Intent
  GOOS : GoString
  caseTable : CaseTable
  NewState : Nat
  NewRatelimiter : Nat
  Now : Nat

/-- The two remote operations of a session.  `Login` may update the session
it is called on (it stores the token and the second-factor flag) and returns
a `*LoginInfo` and an error; `totp` exchanges a ticket and a code for a
token and an error, and leaves the session as it is. -/
structure Remote where
  Login : Session → GoString → GoString → Session × Option LoginInfo × Option GoError
  totp : Session → GoString → GoString → GoString × Option GoError

/-- A remote call made by an entry point. -/
inductive RemoteCall where
  | Login (username password : GoString)
  | totp (ticket code : GoString)
  deriving DecidableEq, Repr

/-- The result of an entry point: the returned `*Session`, the returned
`error`, and the remote calls made on the way, in order. -/
structure Outcome where
  s : Option Session
  err : Option GoError
  calls : List RemoteCall

/-! ## The entry points -/

/-- Go `createEmptySession`. -/
def createEmptySession (h : Host) (userAgent : GoString) : Session :=
  let session : Session :=
    { State := h.NewState
      Ratelimiter := h.NewRatelimiter
      StateEnabled := true
      Compress := true
      ShouldReconnectOnError := true
      ShardID := 0
      ShardCount := 1
      MaxRestRetries := 3
      UserAgent := userAgent
      ClientTimeout := 20
      sequence := 0
      LastHeartbeatAck := h.Now
      Token := []
      MFA := false
      Identify :=
        { Token := []
          Properties := { OS := [], Browser := [] }
          Compress := false
          LargeThreshold := 0
          GuildSubscriptions := false
          Intents := none } }
  let session := { session with Identify := { session.Identify with Compress := true } }
  let session := { session with Identify := { session.Identify with LargeThreshold := 250 } }
  let session := { session with Identify := { session.Identify with GuildSubscriptions := true } }
  let session := { session with Identify := { session.Identify with
    Properties := { session.Identify.Properties with OS := h.GOOS } } }
  let session := { session with Identify := { session.Identify with
    Properties := { session.Identify.Properties with Browser := "Firefox".toList } } }
  let session := { session with Identify := { session.Identify with
    Intents := MakeIntent h.IntentsAll } }
  session

/-- The test of line 37, `strings.HasPrefix(strings.ToLower(token), "bot")`,
on the already trimmed token. -/
def hasBotMarker (h : Host) (token : GoString) : Bool :=
  HasPrefix (ToLower h.caseTable token) "bot".toList

/-- Go `NewWithToken`. -/
def NewWithToken (h : Host) (userAgent token : GoString) : Outcome :=
  let s := createEmptySession h userAgent
  let token := TrimSpace token
  let (token, s) :=
    if hasBotMarker h token then
      ("Bot ".toList ++ TrimSpace (token.drop 3),
        { s with Identify := { s.Identify with
            Intents := MakeIntent h.IntentsAllWithoutPrivileged } })
    else
      (token, s)
  let s := { s with Token := token }
  let s := { s with Identify := { s.Identify with Token := token } }
  let s := { s with MFA := HasPrefix token "mfa".toList }
  { s := some s, err := none, calls := [] }

/-- Go `NewWithPassword`. -/
def NewWithPassword (h : Host) (r : Remote) (userAgent username password : GoString) :
    Outcome :=
  let s := createEmptySession h userAgent
  let (s, _, err) := r.Login s username password
  let err :=
    if err ≠ none ∨ s.Token = [] then
      if s.MFA then
        some GoError.ErrMFA
      else
        some (GoError.Errorf
          ("Unable to fetch discord authentication token. ".toList ++ fmtV err))
    else
      err
  { s := some s, err := err, calls := [RemoteCall.Login username password] }

/-- Go `NewWithPasswordAndMFA`. -/
def NewWithPasswordAndMFA (h : Host) (r : Remote)
    (userAgent username password mfaToken : GoString) : Outcome :=
  let s := createEmptySession h userAgent
  let (s, loginInfo, err) := r.Login s username password
  let login := RemoteCall.Login username password
  if err ≠ none ∨ s.Token = [] then
    if s.MFA then
      if mfaToken = [] then
        { s := some s, err := some GoError.ErrMFA, calls := [login] }
      else
        match loginInfo with
        | none => { s := some s, err := some GoError.ErrMFA, calls := [login] }
        | some info =>
          let (token, err) := r.totp s info.Ticket mfaToken
          let calls := [login, RemoteCall.totp info.Ticket mfaToken]
          if err ≠ none then
            { s := some s, err := err, calls := calls }
          else
            let s := { s with Token := token }
            let s := { s with Identify := { s.Identify with Token := token } }
            { s := some s, err := err, calls := calls }
    else
      { s := some s
        err := some (GoError.Errorf
          ("Unable to fetch discord authentication token. ".toList ++ fmtV err))
        calls := [login] }
  else
    { s := some s, err := err, calls := [login] }

/-- A host used to evaluate the embedding on concrete inputs.  The intent
values are those of the Discord gateway: all fifteen intents, and all of them
but guild members (bit 1) and guild presences (bit 8). -/
def sampleHost : Host where
  IntentsAll := 32767
  IntentsAllWithoutPrivileged := 32509
  GOOS := "linux".toList
  caseTable := asciiCaseTable
  NewState := 0
  NewRatelimiter := 0
  Now := 0

/-! ## Derived notions used in the statements -/

/-- No white space at the start of the string. -/
def noLeadingSpace (s : GoString) : Prop :=
  ∀ c, s.head? = some c → IsSpace c = false

/-- No white space at the end of the string. -/
def noTrailingSpace (s : GoString) : Prop :=
  ∀ c, s.getLast? = some c → IsSpace c = false

/-- The trimmed token begins with the letters b, o, t, each in either case. -/
def beginsWithBot (s : GoString) : Bool :=
  match s with
  | a :: b :: c :: _ =>
    (a == 'b' || a == 'B') && (b == 'o' || b == 'O') && (c == 't' || c == 'T')
  | _ => false

/-- The token that lines 36 to 41 of `NewWithToken` compute from the raw
token. -/
def canonicalToken (h : Host) (token : GoString) : GoString :=
  if hasBotMarker h (TrimSpace token) then
    "Bot ".toList ++ TrimSpace ((TrimSpace token).drop 3)
  else
    TrimSpace token

/-- A remote whose `Login` stores the given token and second-factor flag on
the session and returns the given `LoginInfo` and error, and whose `totp`
returns the given pair; used to evaluate the embedding on concrete inputs. -/
def sampleRemote (token : GoString) (mfa : Bool) (info : Option LoginInfo)
    (err : Option GoError) (totpResult : GoString × Option GoError) : Remote where
  Login := fun s _ _ => ({ s with Token := token, MFA := mfa }, info, err)
  totp := fun _ _ _ => totpResult

/-- The text `fmt.Errorf` of lines 96 and 137 puts before the cause. -/
def unableText : GoString :=
  "Unable to fetch discord authentication token. ".toList

/-! ## Code points and lower-casing -/

theorem Char_ext_toNat {a b : Char} (h : a.toNat = b.toNat) : a = b := by
  apply Char.ext
  apply UInt32.ext
  exact h

theorem toNat_ofNat_small (n : Nat) (h : n < 0xD800) : (Char.ofNat n).toNat = n := by
  have hv : n.isValidChar := Or.inl h
  simp [Char.ofNat, hv, Char.toNat, Char.ofNatAux, UInt32.toNat]

theorem unicodeToLower_eq_iff (tbl : CaseTable) (r c : Char)
    (hc : c = 'b' ∨ c = 'o' ∨ c = 't') :
    unicodeToLower tbl r = c ↔ (r = c ∨ r.toNat + 32 = c.toNat) := by
  unfold unicodeToLower
  have hcn : c.toNat = 98 ∨ c.toNat = 111 ∨ c.toNat = 116 := by
    rcases hc with h | h | h <;> subst h <;> decide
  have hA : 'A'.toNat = 65 := by decide
  have hZ : 'Z'.toNat = 90 := by decide
  rw [hA, hZ]
  split_ifs with h1 h2
  · constructor
    · intro h
      right
      rw [← h, toNat_ofNat_small _ (by omega)]
    · rintro (h | h)
      · subst h; omega
      · apply Char_ext_toNat
        rw [toNat_ofNat_small _ (by omega)]; exact h
  · constructor
    · intro h; exact Or.inl h
    · rintro (h | h)
      · exact h
      · omega
  · constructor
    · intro h
      have hlt : (tbl.lower r).toNat < 128 := by rw [h]; omega
      rcases tbl.lower_ascii r (by omega) hlt with h3 | h3 <;> rw [h3] at h <;> subst h <;>
        exact absurd hcn (by decide)
    · rintro (h | h)
      · subst h; omega
      · omega

theorem lower_eq_b (tbl : CaseTable) (r : Char) :
    unicodeToLower tbl r = 'b' ↔ (r = 'b' ∨ r = 'B') := by
  rw [unicodeToLower_eq_iff tbl r 'b' (Or.inl rfl)]
  constructor
  · rintro (h | h)
    · exact Or.inl h
    · exact Or.inr (Char_ext_toNat (by have : 'B'.toNat = 66 := by decide
                                       have : 'b'.toNat = 98 := by decide
                                       omega))
  · rintro (h | h)
    · exact Or.inl h
    · subst h; right; decide

theorem lower_eq_o (tbl : CaseTable) (r : Char) :
    unicodeToLower tbl r = 'o' ↔ (r = 'o' ∨ r = 'O') := by
  rw [unicodeToLower_eq_iff tbl r 'o' (Or.inr (Or.inl rfl))]
  constructor
  · rintro (h | h)
    · exact Or.inl h
    · exact Or.inr (Char_ext_toNat (by have : 'O'.toNat = 79 := by decide
                                       have : 'o'.toNat = 111 := by decide
                                       omega))
  · rintro (h | h)
    · exact Or.inl h
    · subst h; right; decide

theorem lower_eq_t (tbl : CaseTable) (r : Char) :
    unicodeToLower tbl r = 't' ↔ (r = 't' ∨ r = 'T') := by
  rw [unicodeToLower_eq_iff tbl r 't' (Or.inr (Or.inr rfl))]
  constructor
  · rintro (h | h)
    · exact Or.inl h
    · exact Or.inr (Char_ext_toNat (by have : 'T'.toNat = 84 := by decide
                                       have : 't'.toNat = 116 := by decide
                                       omega))
  · rintro (h | h)
    · exact Or.inl h
    · subst h; right; decide

/-! ## Trimming -/

theorem TrimLeftSpace_noLeading (s : GoString) : noLeadingSpace (TrimLeftSpace s) := by
  intro c hc
  have := List.head?_dropWhile_not IsSpace s
  unfold TrimLeftSpace at hc
  rw [hc] at this
  exact this

theorem TrimRightSpace_noTrailing (s : GoString) : noTrailingSpace (TrimRightSpace s) := by
  intro c hc
  unfold TrimRightSpace at hc
  have hne : s.rdropWhile IsSpace ≠ [] := by
    intro h; rw [h] at hc; simp at hc
  have := List.rdropWhile_last_not (p := IsSpace) (l := s) hne
  rw [List.getLast?_eq_getLast _ hne] at hc
  injection hc with hc
  rw [hc] at this
  simpa using this

theorem TrimRightSpace_noLeading (s : GoString) (h : noLeadingSpace s) :
    noLeadingSpace (TrimRightSpace s) := by
  intro c hc
  apply h
  unfold TrimRightSpace at hc
  obtain ⟨t, ht⟩ := List.rdropWhile_prefix (p := IsSpace) (l := s)
  cases hr : s.rdropWhile IsSpace with
  | nil => rw [hr] at hc; simp at hc
  | cons a as =>
    rw [hr] at hc ht
    rw [← ht]
    simpa using hc

theorem TrimLeftSpace_of_noLeading (s : GoString) (h : noLeadingSpace s) :
    TrimLeftSpace s = s := by
  unfold TrimLeftSpace
  cases s with
  | nil => rfl
  | cons a as =>
    have := h a rfl
    simp [List.dropWhile_cons, this]

theorem TrimRightSpace_of_noTrailing (s : GoString) (h : noTrailingSpace s) :
    TrimRightSpace s = s := by
  unfold TrimRightSpace
  rw [List.rdropWhile_eq_self_iff]
  intro hl
  have := h (s.getLast hl) (List.getLast?_eq_getLast _ hl)
  simp [this]

theorem TrimSpace_noLeading (s : GoString) : noLeadingSpace (TrimSpace s) :=
  TrimRightSpace_noLeading _ (TrimLeftSpace_noLeading s)

theorem TrimSpace_noTrailing (s : GoString) : noTrailingSpace (TrimSpace s) :=
  TrimRightSpace_noTrailing _

theorem TrimSpace_of_trimmed (s : GoString) (h1 : noLeadingSpace s) (h2 : noTrailingSpace s) :
    TrimSpace s = s := by
  unfold TrimSpace
  rw [TrimLeftSpace_of_noLeading s h1, TrimRightSpace_of_noTrailing s h2]

theorem TrimSpace_idem (s : GoString) : TrimSpace (TrimSpace s) = TrimSpace s :=
  TrimSpace_of_trimmed _ (TrimSpace_noLeading s) (TrimSpace_noTrailing s)

theorem TrimSpace_space_cons (b : GoString) : TrimSpace (' ' :: b) = TrimSpace b := by
  unfold TrimSpace TrimLeftSpace
  rw [List.dropWhile_cons_of_pos (by decide)]

theorem TrimSpace_nil : TrimSpace [] = [] := rfl

theorem TrimSpace_eq_nil (r : GoString) (hr : TrimSpace r = []) :
    ∀ x ∈ r, IsSpace x = true := by
  unfold TrimSpace TrimRightSpace TrimLeftSpace at hr
  rw [List.rdropWhile_eq_nil_iff] at hr
  cases hd : r.dropWhile IsSpace with
  | nil => exact List.dropWhile_eq_nil_iff.mp hd
  | cons a as =>
    have h1 := List.head?_dropWhile_not IsSpace r
    rw [hd] at h1 hr
    have h2 := hr a (List.mem_cons_self a as)
    simp only [List.head?_cons] at h1
    rw [h1] at h2
    exact absurd h2 (by decide)

theorem TrimSpace_drop_ne_nil (s : GoString) (n : Nat) (hs : noTrailingSpace s)
    (hn : n < s.length) : TrimSpace (s.drop n) ≠ [] := by
  intro hnil
  have hall := TrimSpace_eq_nil _ hnil
  have hne : s.drop n ≠ [] := by
    intro h0
    have := congrArg List.length h0
    simp at this
    omega
  have hlast : (s.drop n).getLast? = s.getLast? := by
    rw [List.getLast?_drop, if_neg (by omega)]
  have h1 := hall _ (List.getLast_mem hne)
  have h2 := hs ((s.drop n).getLast hne) (by rw [← hlast]; exact List.getLast?_eq_getLast _ hne)
  rw [h1] at h2
  exact absurd h2 (by decide)

/-! ## The bot marker and the canonical token -/

theorem hasBotMarker_eq (h : Host) (s : GoString) :
    hasBotMarker h s = beginsWithBot s := by
  unfold hasBotMarker HasPrefix ToLower beginsWithBot
  match s with
  | [] => rfl
  | [_] => simp [List.isPrefixOf]
  | [_, _] => simp [List.isPrefixOf]
  | a :: b :: c :: rest =>
    have e : "bot".toList = ['b', 'o', 't'] := rfl
    rw [e]
    simp only [List.map_cons, List.isPrefixOf]
    rw [Bool.eq_iff_iff]
    simp [eq_comm (a := 'b'), eq_comm (a := 'o'), eq_comm (a := 't'),
      lower_eq_b, lower_eq_o, lower_eq_t, and_assoc]

theorem beginsWithBot_length (s : GoString) (hb : beginsWithBot s = true) : 3 ≤ s.length := by
  match s, hb with
  | _ :: _ :: _ :: _, _ => simp

theorem beginsWithBot_not_mfa (s : GoString) (hb : beginsWithBot s = true) :
    HasPrefix s "mfa".toList = false := by
  match s, hb with
  | a :: b :: c :: rest, hb =>
    have e : "mfa".toList = ['m', 'f', 'a'] := rfl
    rw [e]
    simp only [beginsWithBot, Bool.and_eq_true, Bool.or_eq_true, beq_iff_eq] at hb
    simp only [HasPrefix, List.isPrefixOf, Bool.and_eq_false_imp]
    intro hm
    rcases hb.1.1 with h1 | h1 <;> subst h1 <;> exact absurd hm (by decide)

theorem canonicalToken_eq (h : Host) (token : GoString) :
    canonicalToken h token =
      if beginsWithBot (TrimSpace token) = true then
        "Bot ".toList ++ TrimSpace ((TrimSpace token).drop 3)
      else TrimSpace token := by
  unfold canonicalToken
  rw [hasBotMarker_eq]

/-- The session `NewWithToken` builds, field by field. -/
theorem NewWithToken_eq (h : Host) (userAgent token : GoString) :
    NewWithToken h userAgent token =
      { s := some
          { createEmptySession h userAgent with
            Token := canonicalToken h token
            MFA := HasPrefix (canonicalToken h token) "mfa".toList
            Identify :=
              { (createEmptySession h userAgent).Identify with
                Token := canonicalToken h token
                Intents :=
                  if hasBotMarker h (TrimSpace token) then
                    MakeIntent h.IntentsAllWithoutPrivileged
                  else MakeIntent h.IntentsAll } }
        err := none
        calls := [] } := by
  unfold NewWithToken canonicalToken
  by_cases hb : hasBotMarker h (TrimSpace token) = true
  · simp [hb]
  · simp [hb, createEmptySession]

theorem bot_drop_canonical (b : GoString) :
    TrimSpace ((TrimSpace ("Bot ".toList ++ TrimSpace b)).drop 3) = TrimSpace b ∧
    beginsWithBot (TrimSpace ("Bot ".toList ++ TrimSpace b)) = true := by
  cases hb : TrimSpace b with
  | nil => constructor <;> decide
  | cons x xs =>
    have hne : TrimSpace b ≠ [] := by rw [hb]; simp
    have ht : TrimSpace ("Bot ".toList ++ TrimSpace b) = "Bot ".toList ++ TrimSpace b := by
      apply TrimSpace_of_trimmed
      · intro c hc
        have e : "Bot ".toList = ['B', 'o', 't', ' '] := rfl
        rw [e] at hc
        simp at hc
        subst hc
        decide
      · intro c hc
        rw [List.getLast?_append_of_ne_nil _ hne] at hc
        exact TrimSpace_noTrailing b c hc
    rw [← hb, ht]
    have e : "Bot ".toList = ['B', 'o', 't', ' '] := rfl
    rw [e]
    constructor
    · show TrimSpace (' ' :: TrimSpace b) = TrimSpace b
      rw [TrimSpace_space_cons, TrimSpace_idem]
    · rfl

theorem canonicalToken_idem (h : Host) (token : GoString) :
    canonicalToken h (canonicalToken h token) = canonicalToken h token ∧
    hasBotMarker h (TrimSpace (canonicalToken h token)) = hasBotMarker h (TrimSpace token) := by
  unfold canonicalToken
  by_cases hb : hasBotMarker h (TrimSpace token) = true
  · simp only [hb, if_true]
    obtain ⟨h1, h2⟩ := bot_drop_canonical ((TrimSpace token).drop 3)
    rw [hasBotMarker_eq, h2]
    simp only [if_true, h1, and_self]
  · simp only [hb]
    simp only [Bool.false_eq_true, if_false, TrimSpace_idem, hb, and_self]

theorem canonicalToken_noLeading (h : Host) (token : GoString) :
    noLeadingSpace (canonicalToken h token) := by
  unfold canonicalToken
  split_ifs with hb
  · intro c hc
    have e : "Bot ".toList = ['B', 'o', 't', ' '] := rfl
    rw [e] at hc
    simp at hc
    subst hc
    decide
  · exact TrimSpace_noLeading token

theorem canonicalToken_noTrailing (h : Host) (token : GoString)
    (hx : ¬ (beginsWithBot (TrimSpace token) = true ∧ (TrimSpace token).length = 3)) :
    noTrailingSpace (canonicalToken h token) := by
  unfold canonicalToken
  rw [hasBotMarker_eq]
  split_ifs with hb
  · have h3 := beginsWithBot_length _ hb
    have hlen : 3 < (TrimSpace token).length := by
      rcases Nat.lt_or_ge 3 (TrimSpace token).length with h4 | h4
      · exact h4
      · exact absurd ⟨hb, le_antisymm h4 h3⟩ hx
    have hne := TrimSpace_drop_ne_nil (TrimSpace token) 3 (TrimSpace_noTrailing token) hlen
    intro c hc
    rw [List.getLast?_append_of_ne_nil _ hne] at hc
    exact TrimSpace_noTrailing _ c hc
  · exact TrimSpace_noTrailing token

theorem canonicalToken_bare_marker (h : Host) (token : GoString)
    (hb : beginsWithBot (TrimSpace token) = true) (hl : (TrimSpace token).length = 3) :
    canonicalToken h token = "Bot ".toList := by
  unfold canonicalToken
  rw [hasBotMarker_eq, if_pos hb]
  have : (TrimSpace token).drop 3 = [] := by
    apply List.drop_eq_nil_of_le; omega
  rw [this]
  rfl

theorem canonicalToken_mfa (h : Host) (token : GoString) :
    HasPrefix (canonicalToken h token) "mfa".toList = HasPrefix (TrimSpace token) "mfa".toList := by
  rw [canonicalToken_eq]
  split_ifs with hb
  · rw [beginsWithBot_not_mfa _ hb]
    rfl
  · rfl

theorem canonicalToken_ne_nil (h : Host) (token : GoString) :
    canonicalToken h token ≠ [] ↔ TrimSpace token ≠ [] := by
  rw [canonicalToken_eq]
  split_ifs with hb
  · have := beginsWithBot_length _ hb
    constructor
    · intro _ h0
      rw [h0] at this
      simp at this
    · intro _ h0
      have e : "Bot ".toList = ['B', 'o', 't', ' '] := rfl
      rw [e] at h0
      simp at h0
  · rfl

/-! ## The password entry points, case by case -/

theorem NewWithPassword_eq (h : Host) (r : Remote) (userAgent username password : GoString)
    (s1 : Session) (info : Option LoginInfo) (e : Option GoError)
    (hL : r.Login (createEmptySession h userAgent) username password = (s1, info, e)) :
    NewWithPassword h r userAgent username password =
      { s := some s1
        err :=
          if e ≠ none ∨ s1.Token = [] then
            if s1.MFA then some GoError.ErrMFA
            else some (GoError.Errorf (unableText ++ fmtV e))
          else e
        calls := [RemoteCall.Login username password] } := by
  simp only [NewWithPassword, hL, unableText]

theorem NewWithPasswordAndMFA_direct (h : Host) (r : Remote)
    (userAgent username password mfaToken : GoString)
    (s1 : Session) (info : Option LoginInfo) (e : Option GoError)
    (hL : r.Login (createEmptySession h userAgent) username password = (s1, info, e))
    (hc : ¬ (e ≠ none ∨ s1.Token = [])) :
    NewWithPasswordAndMFA h r userAgent username password mfaToken =
      { s := some s1, err := e, calls := [RemoteCall.Login username password] } := by
  simp only [NewWithPasswordAndMFA, hL, hc, if_false]

theorem NewWithPasswordAndMFA_unable (h : Host) (r : Remote)
    (userAgent username password mfaToken : GoString)
    (s1 : Session) (info : Option LoginInfo) (e : Option GoError)
    (hL : r.Login (createEmptySession h userAgent) username password = (s1, info, e))
    (hc : e ≠ none ∨ s1.Token = []) (hm : s1.MFA = false) :
    NewWithPasswordAndMFA h r userAgent username password mfaToken =
      { s := some s1
        err := some (GoError.Errorf (unableText ++ fmtV e))
        calls := [RemoteCall.Login username password] } := by
  simp only [NewWithPasswordAndMFA, hL, hc, hm, if_true, unableText]
  rfl

theorem NewWithPasswordAndMFA_nocode (h : Host) (r : Remote)
    (userAgent username password : GoString)
    (s1 : Session) (info : Option LoginInfo) (e : Option GoError)
    (hL : r.Login (createEmptySession h userAgent) username password = (s1, info, e))
    (hc : e ≠ none ∨ s1.Token = []) (hm : s1.MFA = true) :
    NewWithPasswordAndMFA h r userAgent username password [] =
      { s := some s1, err := some GoError.ErrMFA
        calls := [RemoteCall.Login username password] } := by
  simp only [NewWithPasswordAndMFA, hL, hc, hm, if_true]

theorem NewWithPasswordAndMFA_noinfo (h : Host) (r : Remote)
    (userAgent username password mfaToken : GoString)
    (s1 : Session) (e : Option GoError)
    (hL : r.Login (createEmptySession h userAgent) username password = (s1, none, e))
    (hc : e ≠ none ∨ s1.Token = []) (hm : s1.MFA = true) :
    NewWithPasswordAndMFA h r userAgent username password mfaToken =
      { s := some s1, err := some GoError.ErrMFA
        calls := [RemoteCall.Login username password] } := by
  simp only [NewWithPasswordAndMFA, hL, hc, hm, if_true]
  split_ifs <;> rfl

theorem NewWithPasswordAndMFA_totp (h : Host) (r : Remote)
    (userAgent username password mfaToken : GoString)
    (s1 : Session) (i : LoginInfo) (e : Option GoError)
    (hL : r.Login (createEmptySession h userAgent) username password = (s1, some i, e))
    (hc : e ≠ none ∨ s1.Token = []) (hm : s1.MFA = true) (hcode : mfaToken ≠ []) :
    NewWithPasswordAndMFA h r userAgent username password mfaToken =
      { s :=
          if (r.totp s1 i.Ticket mfaToken).2 ≠ none then some s1
          else some { s1 with
            Token := (r.totp s1 i.Ticket mfaToken).1
            Identify := { s1.Identify with Token := (r.totp s1 i.Ticket mfaToken).1 } }
        err := (r.totp s1 i.Ticket mfaToken).2
        calls := [RemoteCall.Login username password, RemoteCall.totp i.Ticket mfaToken] } := by
  simp only [NewWithPasswordAndMFA, hL, hc, hm, hcode, if_true, if_false]
  split_ifs <;> rfl

/-! ## Further facts on trimming and on the entry points -/

theorem rdropWhile_append_rtakeWhile (p : Char → Bool) (l : GoString) :
    l.rdropWhile p ++ l.rtakeWhile p = l := by
  unfold List.rdropWhile List.rtakeWhile
  rw [← List.reverse_append, List.takeWhile_append_dropWhile, List.reverse_reverse]

theorem TrimSpace_decomp (s : GoString) :
    s = s.takeWhile IsSpace ++ TrimSpace s ++ (TrimLeftSpace s).rtakeWhile IsSpace := by
  unfold TrimSpace TrimRightSpace
  rw [List.append_assoc, rdropWhile_append_rtakeWhile]
  unfold TrimLeftSpace
  rw [List.takeWhile_append_dropWhile]

theorem hasBotMarker_length (h : Host) (s : GoString) (hb : hasBotMarker h s = true) :
    3 ≤ s.length := by
  rw [hasBotMarker_eq] at hb
  exact beginsWithBot_length s hb

theorem NewWithPasswordAndMFA_empty_code (h : Host) (r : Remote)
    (userAgent username password : GoString) :
    NewWithPasswordAndMFA h r userAgent username password [] =
      NewWithPassword h r userAgent username password := by
  obtain ⟨s1, info, e, hL⟩ : ∃ s1 info e,
      r.Login (createEmptySession h userAgent) username password = (s1, info, e) :=
    ⟨_, _, _, rfl⟩
  rw [NewWithPassword_eq h r _ _ _ s1 info e hL]
  by_cases hc : e ≠ none ∨ s1.Token = []
  · by_cases hm : s1.MFA = true
    · rw [NewWithPasswordAndMFA_nocode h r _ _ _ s1 info e hL hc hm, if_pos hc, if_pos hm]
    · have hm2 : s1.MFA = false := by simpa using hm
      rw [NewWithPasswordAndMFA_unable h r _ _ _ _ s1 info e hL hc hm2, if_pos hc, hm2]
      rfl
  · rw [NewWithPasswordAndMFA_direct h r _ _ _ _ s1 info e hL hc, if_neg hc]

theorem NewWithPassword_calls (h : Host) (r : Remote)
    (userAgent username password : GoString) :
    (NewWithPassword h r userAgent username password).calls =
      [RemoteCall.Login username password] := by
  rw [NewWithPassword_eq h r _ _ _ _ _ _ rfl]

/-! ## Claims on the token entry point -/

/-- C1: token normalisation in `NewWithToken` is idempotent.  Feeding the token
stored for a raw token back into `NewWithToken` gives the same result again
(same `Token`, `Identify.Token`, intents and flags), and the stored token has
the same bot classification as the raw one. -/
theorem C1_normalise_idempotent (h : Host) (userAgent token : GoString) :
    ∃ s, (NewWithToken h userAgent token).s = some s ∧
      NewWithToken h userAgent s.Token = NewWithToken h userAgent token ∧
      hasBotMarker h (TrimSpace s.Token) = hasBotMarker h (TrimSpace token) := by
  obtain ⟨h1, h2⟩ := canonicalToken_idem h token
  refine ⟨_, by rw [NewWithToken_eq], ?_, ?_⟩
  · show NewWithToken h userAgent (canonicalToken h token) = _
    rw [NewWithToken_eq, NewWithToken_eq, h1, h2]
  · exact h2

/-- C2: when the trimmed raw token begins with b, o, t in any mix of cases,
the stored token is `"Bot "` followed by the trimmed remainder after these
three characters, whether or not white space followed the marker; `BOT abc`,
`Bot abc`, `bot abc` and `BOTabc` all give `Bot abc`. -/
theorem C2_bot_token_canonical (h : Host) (userAgent : GoString) :
    (∀ token, beginsWithBot (TrimSpace token) = true →
      ∃ s, (NewWithToken h userAgent token).s = some s ∧
        s.Token = "Bot ".toList ++ TrimSpace ((TrimSpace token).drop 3) ∧
        s.Identify.Token = "Bot ".toList ++ TrimSpace ((TrimSpace token).drop 3)) ∧
    (∀ token ∈ ["BOT abc".toList, "Bot abc".toList, "bot abc".toList, "BOTabc".toList],
      ∃ s, (NewWithToken h userAgent token).s = some s ∧ s.Token = "Bot abc".toList ∧
        s.Identify.Token = "Bot abc".toList) := by
  have key : ∀ token, beginsWithBot (TrimSpace token) = true →
      ∃ s, (NewWithToken h userAgent token).s = some s ∧
        s.Token = "Bot ".toList ++ TrimSpace ((TrimSpace token).drop 3) ∧
        s.Identify.Token = "Bot ".toList ++ TrimSpace ((TrimSpace token).drop 3) := by
    intro token hb
    rw [← hasBotMarker_eq h] at hb
    refine ⟨_, by rw [NewWithToken_eq], ?_, ?_⟩ <;> simp [canonicalToken, hb]
  refine ⟨key, ?_⟩
  intro token hmem
  simp only [List.mem_cons, List.mem_singleton, List.not_mem_nil, or_false] at hmem
  rcases hmem with e | e | e | e <;> subst e <;> exact key _ (by decide)

/-- Witness of C2 at the raw token `  bOt   xyz `. -/
theorem C2_bot_token_canonical_witness :
    beginsWithBot (TrimSpace "  bOt   xyz ".toList) = true ∧
    ∃ s, (NewWithToken sampleHost "agent/1.0".toList "  bOt   xyz ".toList).s = some s ∧
      s.Token = "Bot xyz".toList ∧ s.Identify.Token = "Bot xyz".toList :=
  ⟨by decide,
    (C2_bot_token_canonical sampleHost "agent/1.0".toList).1 "  bOt   xyz ".toList (by decide)⟩

/-- C3: `NewWithToken` takes the bot branch exactly when the trimmed raw token
begins, ignoring case, with `bot`; the intents of the returned session are
`MakeIntent(IntentsAllWithoutPrivileged)` in that case and otherwise
`MakeIntent(IntentsAll)`, the value `createEmptySession` sets. -/
theorem C3_bot_classification_intents (h : Host) (userAgent token : GoString) :
    hasBotMarker h (TrimSpace token) = beginsWithBot (TrimSpace token) ∧
    (createEmptySession h userAgent).Identify.Intents = MakeIntent h.IntentsAll ∧
    ∃ s, (NewWithToken h userAgent token).s = some s ∧
      s.Identify.Intents =
        if beginsWithBot (TrimSpace token) = true then
          MakeIntent h.IntentsAllWithoutPrivileged
        else (createEmptySession h userAgent).Identify.Intents := by
  refine ⟨hasBotMarker_eq h _, rfl, _, by rw [NewWithToken_eq], ?_⟩
  simp only [hasBotMarker_eq]
  rfl

/-- C4 (as stated) fails: for the raw token `bot` the stored token is `"Bot "`,
which ends in a space. -/
theorem C4_counterexample :
    ∃ s, (NewWithToken sampleHost "agent/1.0".toList "bot".toList).s = some s ∧
      s.Token = "Bot ".toList ∧ ¬ noTrailingSpace s.Token := by
  refine ⟨_, rfl, by decide, ?_⟩
  intro hn
  exact absurd (hn ' ' (by decide)) (by decide)

/-- C4 (amended): the token stored by `NewWithToken` never begins with white
space; it does not end with white space either, unless the trimmed raw token
is the bare three-letter bot marker, in which case the stored token is
`"Bot "`.  For `  Bot   abc  ` the stored token is `Bot abc` and the token is
classified as a bot token. -/
theorem C4_stored_token_trimmed (h : Host) (userAgent token : GoString) :
    (∃ s, (NewWithToken h userAgent token).s = some s ∧
      noLeadingSpace s.Token ∧
      (¬ (beginsWithBot (TrimSpace token) = true ∧ (TrimSpace token).length = 3) →
        noTrailingSpace s.Token) ∧
      (beginsWithBot (TrimSpace token) = true ∧ (TrimSpace token).length = 3 →
        s.Token = "Bot ".toList)) ∧
    (∃ s, (NewWithToken h userAgent "  Bot   abc  ".toList).s = some s ∧
      s.Token = "Bot abc".toList ∧
      hasBotMarker h (TrimSpace "  Bot   abc  ".toList) = true ∧
      s.Identify.Intents = MakeIntent h.IntentsAllWithoutPrivileged) := by
  constructor
  · refine ⟨_, by rw [NewWithToken_eq], canonicalToken_noLeading h token,
      canonicalToken_noTrailing h token, ?_⟩
    rintro ⟨hb, hl⟩
    exact canonicalToken_bare_marker h token hb hl
  · have hb : hasBotMarker h (TrimSpace "  Bot   abc  ".toList) = true := by
      rw [hasBotMarker_eq]; decide
    refine ⟨_, by rw [NewWithToken_eq], ?_, hb, ?_⟩
    · simp only [canonicalToken, hb, if_true]; decide
    · simp only [hb, if_true]

/-- Witness of C4 (amended) at a raw token that is not the bare marker. -/
theorem C4_stored_token_trimmed_witness :
    ∃ s, (NewWithToken sampleHost "agent/1.0".toList "\t bot xyz \n".toList).s = some s ∧
      s.Token = "Bot xyz".toList ∧ noLeadingSpace s.Token ∧ noTrailingSpace s.Token := by
  obtain ⟨⟨s, hs, h1, h2, _⟩, _⟩ :=
    C4_stored_token_trimmed sampleHost "agent/1.0".toList "\t bot xyz \n".toList
  refine ⟨s, hs, ?_, h1, h2 (by decide)⟩
  have e : (NewWithToken sampleHost "agent/1.0".toList "\t bot xyz \n".toList).s =
      some (_ : Session) := rfl
  rw [e] at hs
  injection hs with hs
  rw [← hs]
  decide

/-- C5: `NewWithToken` always returns a nil error, and the `Token` and
`Identify.Token` of the returned session both hold the normalised token (the
trimmed raw token, rewritten to `"Bot " + body` when it carries the bot
marker).  `NewWithToken("agent/1.0", "  BOT mytoken123  ")` stores
`Bot mytoken123` and the all-without-privileged intents. -/
theorem C5_token_flow_succeeds (h : Host) (userAgent token : GoString) :
    ((NewWithToken h userAgent token).err = none ∧
      ∃ s, (NewWithToken h userAgent token).s = some s ∧
        s.Token =
          (if beginsWithBot (TrimSpace token) = true then
            "Bot ".toList ++ TrimSpace ((TrimSpace token).drop 3)
          else TrimSpace token) ∧
        s.Identify.Token = s.Token) ∧
    ((NewWithToken h "agent/1.0".toList "  BOT mytoken123  ".toList).err = none ∧
      ∃ s, (NewWithToken h "agent/1.0".toList "  BOT mytoken123  ".toList).s = some s ∧
        s.Token = "Bot mytoken123".toList ∧
        s.Identify.Token = "Bot mytoken123".toList ∧
        s.Identify.Intents = MakeIntent h.IntentsAllWithoutPrivileged) := by
  refine ⟨⟨by rw [NewWithToken_eq], _, by rw [NewWithToken_eq], ?_, rfl⟩, ?_⟩
  · exact canonicalToken_eq h token
  · have hb : hasBotMarker h (TrimSpace "  BOT mytoken123  ".toList) = true := by
      rw [hasBotMarker_eq]; decide
    refine ⟨by rw [NewWithToken_eq], _, by rw [NewWithToken_eq], ?_, ?_, ?_⟩
    · simp only [canonicalToken, hb, if_true]; decide
    · simp only [canonicalToken, hb, if_true]; decide
    · simp only [hb, if_true]

/-- C6 (as stated) fails: for the raw token `mfa.abc` the returned session has
`MFA` set. -/
theorem C6_counterexample :
    ∃ s, (NewWithToken sampleHost "agent/1.0".toList "mfa.abc".toList).s = some s ∧
      s.MFA = true :=
  ⟨_, rfl, by decide⟩

/-- C6 (amended): the session returned by `NewWithToken` has `MFA` false
unless the trimmed raw token begins with the lower-case letters `mfa`, and in
that case `MFA` is true. -/
theorem C6_token_flow_mfa_flag (h : Host) (userAgent token : GoString) :
    ∃ s, (NewWithToken h userAgent token).s = some s ∧
      s.MFA = HasPrefix (TrimSpace token) "mfa".toList := by
  refine ⟨_, by rw [NewWithToken_eq], ?_⟩
  exact canonicalToken_mfa h token

/-! ## Claims on the password entry points -/

/-- C7 (as stated) fails: `NewWithToken` on the empty raw token returns a nil
error and a session whose `Token` is empty. -/
theorem C7_counterexample :
    (NewWithToken sampleHost "agent/1.0".toList []).err = none ∧
    ∃ s, (NewWithToken sampleHost "agent/1.0".toList []).s = some s ∧ s.Token = [] :=
  ⟨rfl, _, rfl, by decide⟩

/-- C7 (amended): `NewWithToken` always returns a nil error and its session's
`Token` is non-empty exactly when the raw token has a character that is not
white space; whenever `NewWithPassword` returns a nil error the session's
`Token` is non-empty; whenever `NewWithPasswordAndMFA` returns a nil error and
the second-factor exchange was either not invoked or returned a non-empty
token, the session's `Token` is non-empty. -/
theorem C7_token_nonempty_on_success (h : Host) (r : Remote)
    (userAgent username password code token : GoString) :
    ((NewWithToken h userAgent token).err = none ∧
      ∃ s, (NewWithToken h userAgent token).s = some s ∧
        (s.Token ≠ [] ↔ TrimSpace token ≠ [])) ∧
    ((NewWithPassword h r userAgent username password).err = none →
      ∃ s, (NewWithPassword h r userAgent username password).s = some s ∧ s.Token ≠ []) ∧
    ((NewWithPasswordAndMFA h r userAgent username password code).err = none →
      (∀ ticket,
        RemoteCall.totp ticket code ∈
            (NewWithPasswordAndMFA h r userAgent username password code).calls →
          (r.totp (r.Login (createEmptySession h userAgent) username password).1
            ticket code).1 ≠ []) →
      ∃ s, (NewWithPasswordAndMFA h r userAgent username password code).s = some s ∧
        s.Token ≠ []) := by
  obtain ⟨s1, info, e, hL⟩ : ∃ s1 info e,
      r.Login (createEmptySession h userAgent) username password = (s1, info, e) :=
    ⟨_, _, _, rfl⟩
  refine ⟨⟨by rw [NewWithToken_eq], _, by rw [NewWithToken_eq], ?_⟩, ?_, ?_⟩
  · exact canonicalToken_ne_nil h token
  · rw [NewWithPassword_eq h r _ _ _ s1 info e hL]
    intro herr
    refine ⟨s1, rfl, ?_⟩
    intro h0
    simp only [h0, or_true, if_true] at herr
    split_ifs at herr
  · rw [hL]
    by_cases hc : e ≠ none ∨ s1.Token = []
    · by_cases hm : s1.MFA = true
      · by_cases hcode : code = []
        · subst hcode
          rw [NewWithPasswordAndMFA_nocode h r _ _ _ s1 info e hL hc hm]
          intro herr
          exact absurd herr (by simp)
        · cases info with
          | none =>
            rw [NewWithPasswordAndMFA_noinfo h r _ _ _ _ s1 e hL hc hm]
            intro herr
            exact absurd herr (by simp)
          | some i =>
            rw [NewWithPasswordAndMFA_totp h r _ _ _ _ s1 i e hL hc hm hcode]
            intro herr hall
            have herr2 : (r.totp s1 i.Ticket code).2 = none := herr
            simp only [herr2, ne_eq, not_true_eq_false, if_false]
            exact ⟨_, rfl, hall i.Ticket (by simp)⟩
      · rw [NewWithPasswordAndMFA_unable h r _ _ _ _ s1 info e hL hc (by simpa using hm)]
        intro herr
        exact absurd herr (by simp)
    · rw [NewWithPasswordAndMFA_direct h r _ _ _ _ s1 info e hL hc]
      intro _ _
      refine ⟨s1, rfl, ?_⟩
      intro h0
      exact hc (Or.inr h0)

/-- Witness of C7 (amended): a login that yields the token `abc`, and a login
that asks for a second factor followed by an exchange that yields `tok`. -/
theorem C7_token_nonempty_on_success_witness :
    (∃ s, (NewWithPassword sampleHost
        (sampleRemote "abc".toList false none none ([], none))
        "agent/1.0".toList "user".toList "pass".toList).s = some s ∧ s.Token ≠ []) ∧
    (∃ s, (NewWithPasswordAndMFA sampleHost
        (sampleRemote [] true (some { Ticket := "ticket".toList }) none ("tok".toList, none))
        "agent/1.0".toList "user".toList "pass".toList "123456".toList).s = some s ∧
      s.Token ≠ []) :=
  ⟨(C7_token_nonempty_on_success sampleHost
      (sampleRemote "abc".toList false none none ([], none))
      "agent/1.0".toList "user".toList "pass".toList [] []).2.1 rfl,
   (C7_token_nonempty_on_success sampleHost
      (sampleRemote [] true (some { Ticket := "ticket".toList }) none ("tok".toList, none))
      "agent/1.0".toList "user".toList "pass".toList "123456".toList []).2.2 rfl
      (fun _ _ => List.cons_ne_nil _ _)⟩

/-- C8: `NewWithPassword` returns a nil error exactly when `Login` returned no
error and left a non-empty `Token` on the session; the returned session is the
one `Login` left (so its `Token` is the token `Login` produced: a login that
leaves `abc` gives `Token == "abc"` and no error), and in every other case the
error is non-nil, also when `Login` reported no error but left the token
empty. -/
theorem C8_password_flow_success (h : Host) (r : Remote)
    (userAgent username password : GoString)
    (s1 : Session) (info : Option LoginInfo) (e : Option GoError)
    (hL : r.Login (createEmptySession h userAgent) username password = (s1, info, e)) :
    ((NewWithPassword h r userAgent username password).err = none ↔
      (e = none ∧ s1.Token ≠ [])) ∧
    (NewWithPassword h r userAgent username password).s = some s1 ∧
    (e = none → s1.Token = "abc".toList →
      (NewWithPassword h r userAgent username password).err = none ∧
      ∃ s, (NewWithPassword h r userAgent username password).s = some s ∧
        s.Token = "abc".toList) ∧
    (e = none → s1.Token = [] →
      (NewWithPassword h r userAgent username password).err ≠ none) := by
  rw [NewWithPassword_eq h r _ _ _ s1 info e hL]
  have key : (if e ≠ none ∨ s1.Token = [] then
        if s1.MFA then some GoError.ErrMFA
        else some (GoError.Errorf (unableText ++ fmtV e))
      else e) = none ↔ (e = none ∧ s1.Token ≠ []) := by
    by_cases hc : e ≠ none ∨ s1.Token = []
    · rw [if_pos hc]
      constructor
      · intro h0
        split_ifs at h0
      · rintro ⟨h1, h2⟩
        rcases hc with hc | hc
        · exact absurd h1 hc
        · exact absurd hc h2
    · rw [if_neg hc]
      push_neg at hc
      constructor
      · intro h0
        exact ⟨h0, hc.2⟩
      · intro h0
        exact h0.1
  refine ⟨key, rfl, ?_, ?_⟩
  · intro he ht
    refine ⟨key.mpr ⟨he, ?_⟩, s1, rfl, ht⟩
    rw [ht]
    decide
  · intro _ ht h0
    exact (key.mp h0).2 ht

/-- Witness of C8: a login that leaves the token `abc` and reports no error. -/
theorem C8_password_flow_success_witness :
    (NewWithPassword sampleHost (sampleRemote "abc".toList false none none ([], none))
      "agent/1.0".toList "user".toList "pass".toList).err = none ∧
    ∃ s, (NewWithPassword sampleHost (sampleRemote "abc".toList false none none ([], none))
      "agent/1.0".toList "user".toList "pass".toList).s = some s ∧ s.Token = "abc".toList :=
  (C8_password_flow_success sampleHost (sampleRemote "abc".toList false none none ([], none))
    "agent/1.0".toList "user".toList "pass".toList _ _ _ rfl).2.2.1 rfl rfl

/-- C9: when `Login` leaves the second-factor flag set and yields no usable
token (it reported an error, or left the token empty), `NewWithPassword`, and
`NewWithPasswordAndMFA` called with an empty code, both return exactly
`ErrMFA`, hence never the `Unable to fetch discord authentication token`
error; this holds also when `Login` itself reported an error. -/
theorem C9_second_factor_required (h : Host) (r : Remote)
    (userAgent username password : GoString)
    (s1 : Session) (info : Option LoginInfo) (e : Option GoError)
    (hL : r.Login (createEmptySession h userAgent) username password = (s1, info, e))
    (hm : s1.MFA = true) (hn : e ≠ none ∨ s1.Token = []) :
    (NewWithPassword h r userAgent username password).err = some GoError.ErrMFA ∧
    (NewWithPasswordAndMFA h r userAgent username password []).err = some GoError.ErrMFA ∧
    (∀ msg, (NewWithPassword h r userAgent username password).err ≠
      some (GoError.Errorf msg)) ∧
    (∀ msg, (NewWithPasswordAndMFA h r userAgent username password []).err ≠
      some (GoError.Errorf msg)) := by
  rw [NewWithPassword_eq h r _ _ _ s1 info e hL,
    NewWithPasswordAndMFA_nocode h r _ _ _ s1 info e hL hn hm]
  have e1 : (if e ≠ none ∨ s1.Token = [] then
        if s1.MFA then some GoError.ErrMFA
        else some (GoError.Errorf (unableText ++ fmtV e))
      else e) = some GoError.ErrMFA := by
    rw [if_pos hn, if_pos hm]
  refine ⟨e1, rfl, ?_, ?_⟩
  · intro msg h0
    have h1 := e1.symm.trans h0
    injection h1 with h1
    injection h1
  · intro msg h0
    injection h0 with h0
    injection h0

/-- Witness of C9: a login that reports an error and marks the account as
second-factor-enrolled. -/
theorem C9_second_factor_required_witness :
    (NewWithPassword sampleHost
      (sampleRemote [] true none (some (GoError.Remote "HTTP 400".toList)) ([], none))
      "agent/1.0".toList "user".toList "pass".toList).err = some GoError.ErrMFA ∧
    (NewWithPasswordAndMFA sampleHost
      (sampleRemote [] true none (some (GoError.Remote "HTTP 400".toList)) ([], none))
      "agent/1.0".toList "user".toList "pass".toList []).err = some GoError.ErrMFA :=
  let w := C9_second_factor_required sampleHost
    (sampleRemote [] true none (some (GoError.Remote "HTTP 400".toList)) ([], none))
    "agent/1.0".toList "user".toList "pass".toList _ _ _ rfl rfl (Or.inl (by decide))
  ⟨w.1, w.2.1⟩

/-- C10: when `Login` returns an error `e` and leaves the second-factor flag
false, `NewWithPassword`, and `NewWithPasswordAndMFA` for every code, fail
with an error that is not `ErrMFA` and whose message is
`Unable to fetch discord authentication token. ` followed by the message of
`e`. -/
theorem C10_login_error_wrapped (h : Host) (r : Remote)
    (userAgent username password code : GoString)
    (s1 : Session) (info : Option LoginInfo) (e : GoError)
    (hL : r.Login (createEmptySession h userAgent) username password = (s1, info, some e))
    (hm : s1.MFA = false) :
    (∃ e1, (NewWithPassword h r userAgent username password).err = some e1 ∧
      e1 ≠ GoError.ErrMFA ∧
      e1.Error = "Unable to fetch discord authentication token. ".toList ++ e.Error) ∧
    (∃ e2, (NewWithPasswordAndMFA h r userAgent username password code).err = some e2 ∧
      e2 ≠ GoError.ErrMFA ∧
      e2.Error = "Unable to fetch discord authentication token. ".toList ++ e.Error) := by
  have hc : some e ≠ none ∨ s1.Token = [] := Or.inl (by simp)
  rw [NewWithPassword_eq h r _ _ _ s1 info (some e) hL,
    NewWithPasswordAndMFA_unable h r _ _ _ _ s1 info (some e) hL hc hm]
  have e1 : (if some e ≠ none ∨ s1.Token = [] then
        if s1.MFA then some GoError.ErrMFA
        else some (GoError.Errorf (unableText ++ fmtV (some e)))
      else some e) = some (GoError.Errorf (unableText ++ fmtV (some e))) := by
    rw [if_pos hc, hm]
    rfl
  refine ⟨⟨_, e1, ?_, rfl⟩, ⟨_, rfl, ?_, rfl⟩⟩ <;> intro h0 <;> injection h0

/-- Witness of C10: a login that fails with `HTTP 401 Unauthorized` on an
account without a second factor. -/
theorem C10_login_error_wrapped_witness :
    (∃ e1, (NewWithPassword sampleHost
        (sampleRemote [] false none (some (GoError.Remote "HTTP 401 Unauthorized".toList))
          ([], none))
        "agent/1.0".toList "user".toList "pass".toList).err = some e1 ∧
      e1 ≠ GoError.ErrMFA ∧
      e1.Error =
        "Unable to fetch discord authentication token. HTTP 401 Unauthorized".toList) ∧
    (∃ e2, (NewWithPasswordAndMFA sampleHost
        (sampleRemote [] false none (some (GoError.Remote "HTTP 401 Unauthorized".toList))
          ([], none))
        "agent/1.0".toList "user".toList "pass".toList "123456".toList).err = some e2 ∧
      e2 ≠ GoError.ErrMFA ∧
      e2.Error =
        "Unable to fetch discord authentication token. HTTP 401 Unauthorized".toList) :=
  C10_login_error_wrapped sampleHost
    (sampleRemote [] false none (some (GoError.Remote "HTTP 401 Unauthorized".toList))
      ([], none))
    "agent/1.0".toList "user".toList "pass".toList "123456".toList _ _
    (GoError.Remote "HTTP 401 Unauthorized".toList) rfl rfl

/-! ## Claims on the second-factor exchange -/

/-- C11: in `NewWithPasswordAndMFA`, when `Login` yields no usable token, sets
the second-factor flag and returns a non-nil `LoginInfo`, and the code is not
empty: if `totp(loginInfo.Ticket, code)` returns the token `t` without error,
the flow returns a nil error and the session's `Token` and `Identify.Token`
are both `t`. -/
theorem C11_second_factor_success (h : Host) (r : Remote)
    (userAgent username password code t : GoString)
    (s1 : Session) (i : LoginInfo) (e : Option GoError)
    (hL : r.Login (createEmptySession h userAgent) username password = (s1, some i, e))
    (hc : e ≠ none ∨ s1.Token = []) (hm : s1.MFA = true) (hcode : code ≠ [])
    (hT : r.totp s1 i.Ticket code = (t, none)) :
    (NewWithPasswordAndMFA h r userAgent username password code).err = none ∧
    ∃ s, (NewWithPasswordAndMFA h r userAgent username password code).s = some s ∧
      s.Token = t ∧ s.Identify.Token = t := by
  rw [NewWithPasswordAndMFA_totp h r _ _ _ _ s1 i e hL hc hm hcode, hT]
  exact ⟨rfl, _, rfl, rfl, rfl⟩

/-- Witness of C11: the login reports an error, marks the account as
second-factor-enrolled and hands out a ticket; the exchange yields `tok`. -/
theorem C11_second_factor_success_witness :
    (NewWithPasswordAndMFA sampleHost
      (sampleRemote [] true (some { Ticket := "ticket".toList })
        (some (GoError.Remote "HTTP 400".toList)) ("tok".toList, none))
      "agent/1.0".toList "user".toList "pass".toList "123456".toList).err = none ∧
    ∃ s, (NewWithPasswordAndMFA sampleHost
      (sampleRemote [] true (some { Ticket := "ticket".toList })
        (some (GoError.Remote "HTTP 400".toList)) ("tok".toList, none))
      "agent/1.0".toList "user".toList "pass".toList "123456".toList).s = some s ∧
      s.Token = "tok".toList ∧ s.Identify.Token = "tok".toList :=
  C11_second_factor_success sampleHost
    (sampleRemote [] true (some { Ticket := "ticket".toList })
      (some (GoError.Remote "HTTP 400".toList)) ("tok".toList, none))
    "agent/1.0".toList "user".toList "pass".toList "123456".toList "tok".toList
    _ { Ticket := "ticket".toList } _ rfl (Or.inr rfl) rfl (by decide) rfl

/-- C12: in `NewWithPasswordAndMFA`, when `Login` yields no usable token, sets
the second-factor flag and returns a non-nil `LoginInfo`, and the code is not
empty: if `totp` fails with the error `e2`, the flow returns exactly `e2`
(neither wrapped nor replaced by `ErrMFA`) and the returned session is the one
`Login` left, so its `Token` and `Identify.Token` are as `Login` left them. -/
theorem C12_second_factor_failure (h : Host) (r : Remote)
    (userAgent username password code t : GoString)
    (s1 : Session) (i : LoginInfo) (e : Option GoError) (e2 : GoError)
    (hL : r.Login (createEmptySession h userAgent) username password = (s1, some i, e))
    (hc : e ≠ none ∨ s1.Token = []) (hm : s1.MFA = true) (hcode : code ≠ [])
    (hT : r.totp s1 i.Ticket code = (t, some e2)) :
    (NewWithPasswordAndMFA h r userAgent username password code).err = some e2 ∧
    (NewWithPasswordAndMFA h r userAgent username password code).s = some s1 ∧
    ∃ s, (NewWithPasswordAndMFA h r userAgent username password code).s = some s ∧
      s.Token = s1.Token ∧ s.Identify.Token = s1.Identify.Token := by
  rw [NewWithPasswordAndMFA_totp h r _ _ _ _ s1 i e hL hc hm hcode, hT]
  exact ⟨rfl, rfl, _, rfl, rfl, rfl⟩

/-- Witness of C12: the exchange rejects the code with `invalid code`, and
even hands back a token next to the error. -/
theorem C12_second_factor_failure_witness :
    (NewWithPasswordAndMFA sampleHost
      (sampleRemote [] true (some { Ticket := "ticket".toList }) none
        ("junk".toList, some (GoError.Remote "invalid code".toList)))
      "agent/1.0".toList "user".toList "pass".toList "000000".toList).err =
        some (GoError.Remote "invalid code".toList) ∧
    ∃ s, (NewWithPasswordAndMFA sampleHost
      (sampleRemote [] true (some { Ticket := "ticket".toList }) none
        ("junk".toList, some (GoError.Remote "invalid code".toList)))
      "agent/1.0".toList "user".toList "pass".toList "000000".toList).s = some s ∧
      s.Token = [] ∧ s.Identify.Token = [] :=
  let w := C12_second_factor_failure sampleHost
    (sampleRemote [] true (some { Ticket := "ticket".toList }) none
      ("junk".toList, some (GoError.Remote "invalid code".toList)))
    "agent/1.0".toList "user".toList "pass".toList "000000".toList "junk".toList
    _ { Ticket := "ticket".toList } _ (GoError.Remote "invalid code".toList)
    rfl (Or.inr rfl) rfl (by decide) rfl
  ⟨w.1, w.2.2⟩

/-- C13: in `NewWithPasswordAndMFA`, when `Login` yields no usable token, sets
the second-factor flag and returns a nil `LoginInfo`, then for every non-empty
code the flow returns exactly `ErrMFA` and `totp` is not invoked: the only
remote call made is the login. -/
theorem C13_no_ticket_no_exchange (h : Host) (r : Remote)
    (userAgent username password code : GoString)
    (s1 : Session) (e : Option GoError)
    (hL : r.Login (createEmptySession h userAgent) username password = (s1, none, e))
    (hc : e ≠ none ∨ s1.Token = []) (hm : s1.MFA = true) (hcode : code ≠ []) :
    (NewWithPasswordAndMFA h r userAgent username password code).err =
      some GoError.ErrMFA ∧
    (NewWithPasswordAndMFA h r userAgent username password code).calls =
      [RemoteCall.Login username password] ∧
    ∀ ticket c, RemoteCall.totp ticket c ∉
      (NewWithPasswordAndMFA h r userAgent username password code).calls := by
  have _ := hcode
  rw [NewWithPasswordAndMFA_noinfo h r _ _ _ _ s1 e hL hc hm]
  refine ⟨rfl, rfl, ?_⟩
  intro ticket c hmem
  simp at hmem

/-- Witness of C13: a login that asks for a second factor without handing out
a `LoginInfo`, and a remote whose exchange would have succeeded. -/
theorem C13_no_ticket_no_exchange_witness :
    (NewWithPasswordAndMFA sampleHost
      (sampleRemote [] true none none ("tok".toList, none))
      "agent/1.0".toList "user".toList "pass".toList "123456".toList).err =
        some GoError.ErrMFA ∧
    (NewWithPasswordAndMFA sampleHost
      (sampleRemote [] true none none ("tok".toList, none))
      "agent/1.0".toList "user".toList "pass".toList "123456".toList).calls =
        [RemoteCall.Login "user".toList "pass".toList] :=
  let w := C13_no_ticket_no_exchange sampleHost
    (sampleRemote [] true none none ("tok".toList, none))
    "agent/1.0".toList "user".toList "pass".toList "123456".toList _ _
    rfl (Or.inr rfl) rfl (by decide)
  ⟨w.1, w.2.1⟩

/-- C14: for every code, empty or not, when `Login` returns no error and
leaves a non-empty token, `NewWithPasswordAndMFA` succeeds at once: the error
is nil, the returned session is the one `Login` left (its `Token` is the
login token), the code plays no part and `totp` is not invoked. -/
theorem C14_code_ignored_on_token (h : Host) (r : Remote)
    (userAgent username password code : GoString)
    (s1 : Session) (info : Option LoginInfo)
    (hL : r.Login (createEmptySession h userAgent) username password = (s1, info, none))
    (ht : s1.Token ≠ []) :
    (NewWithPasswordAndMFA h r userAgent username password code).err = none ∧
    (NewWithPasswordAndMFA h r userAgent username password code).s = some s1 ∧
    (NewWithPasswordAndMFA h r userAgent username password code).calls =
      [RemoteCall.Login username password] ∧
    (∀ ticket c, RemoteCall.totp ticket c ∉
      (NewWithPasswordAndMFA h r userAgent username password code).calls) ∧
    NewWithPasswordAndMFA h r userAgent username password code =
      NewWithPasswordAndMFA h r userAgent username password [] := by
  have hc : ¬ ((none : Option GoError) ≠ none ∨ s1.Token = []) := by
    rintro (h0 | h0)
    · exact h0 rfl
    · exact ht h0
  rw [NewWithPasswordAndMFA_direct h r _ _ _ code s1 info none hL hc,
    NewWithPasswordAndMFA_direct h r _ _ _ [] s1 info none hL hc]
  refine ⟨rfl, rfl, rfl, ?_, rfl⟩
  intro ticket c hmem
  simp at hmem

/-- Witness of C14: the login yields `abc`; a code is supplied all the same. -/
theorem C14_code_ignored_on_token_witness :
    (NewWithPasswordAndMFA sampleHost
      (sampleRemote "abc".toList false none none ("tok".toList, none))
      "agent/1.0".toList "user".toList "pass".toList "123456".toList).err = none ∧
    (∃ s, (NewWithPasswordAndMFA sampleHost
      (sampleRemote "abc".toList false none none ("tok".toList, none))
      "agent/1.0".toList "user".toList "pass".toList "123456".toList).s = some s ∧
      s.Token = "abc".toList) ∧
    (NewWithPasswordAndMFA sampleHost
      (sampleRemote "abc".toList false none none ("tok".toList, none))
      "agent/1.0".toList "user".toList "pass".toList "123456".toList).calls =
        [RemoteCall.Login "user".toList "pass".toList] :=
  let w := C14_code_ignored_on_token sampleHost
    (sampleRemote "abc".toList false none none ("tok".toList, none))
    "agent/1.0".toList "user".toList "pass".toList "123456".toList _ _
    rfl (by decide)
  ⟨w.1, ⟨_, w.2.1, rfl⟩, w.2.2.1⟩

/-! ## Claims on the three flows together and on the defaults -/

/-- C15 (as stated) fails: when the login fails, `NewWithPassword` returns a
non-nil error together with a non-nil session. -/
theorem C15_counterexample :
    (NewWithPassword sampleHost
      (sampleRemote [] false none (some (GoError.Remote "HTTP 401 Unauthorized".toList))
        ([], none))
      "agent/1.0".toList "user".toList "pass".toList).err ≠ none ∧
    (NewWithPassword sampleHost
      (sampleRemote [] false none (some (GoError.Remote "HTTP 401 Unauthorized".toList))
        ([], none))
      "agent/1.0".toList "user".toList "pass".toList).s ≠ none := by
  constructor <;> intro h0 <;> injection h0

/-- C15 (amended): each of the three flows returns a non-nil session in every
case, next to an error that is nil or not.  `NewWithToken` returns a nil
error; `NewWithPassword` returns the session as `Login` left it; when
`NewWithPasswordAndMFA` returns a non-nil error, the session returned with it
is the session as `Login` left it. -/
theorem C15_session_always_returned (h : Host) (r : Remote)
    (userAgent username password code token : GoString)
    (s1 : Session) (info : Option LoginInfo) (e : Option GoError)
    (hL : r.Login (createEmptySession h userAgent) username password = (s1, info, e)) :
    ((NewWithToken h userAgent token).err = none ∧
      ∃ s, (NewWithToken h userAgent token).s = some s) ∧
    (NewWithPassword h r userAgent username password).s = some s1 ∧
    (∃ s, (NewWithPasswordAndMFA h r userAgent username password code).s = some s) ∧
    ((NewWithPasswordAndMFA h r userAgent username password code).err ≠ none →
      (NewWithPasswordAndMFA h r userAgent username password code).s = some s1) := by
  refine ⟨⟨by rw [NewWithToken_eq], _, by rw [NewWithToken_eq]⟩, ?_, ?_⟩
  · rw [NewWithPassword_eq h r _ _ _ s1 info e hL]
  · by_cases hc : e ≠ none ∨ s1.Token = []
    · by_cases hm : s1.MFA = true
      · by_cases hcode : code = []
        · subst hcode
          rw [NewWithPasswordAndMFA_nocode h r _ _ _ s1 info e hL hc hm]
          exact ⟨⟨_, rfl⟩, fun _ => rfl⟩
        · cases info with
          | none =>
            rw [NewWithPasswordAndMFA_noinfo h r _ _ _ _ s1 e hL hc hm]
            exact ⟨⟨_, rfl⟩, fun _ => rfl⟩
          | some i =>
            rw [NewWithPasswordAndMFA_totp h r _ _ _ _ s1 i e hL hc hm hcode]
            by_cases ht : (r.totp s1 i.Ticket code).2 ≠ none
            · rw [if_pos ht]
              exact ⟨⟨_, rfl⟩, fun _ => rfl⟩
            · rw [if_neg ht]
              exact ⟨⟨_, rfl⟩, fun h0 => absurd h0 ht⟩
      · rw [NewWithPasswordAndMFA_unable h r _ _ _ _ s1 info e hL hc (by simpa using hm)]
        exact ⟨⟨_, rfl⟩, fun _ => rfl⟩
    · rw [NewWithPasswordAndMFA_direct h r _ _ _ _ s1 info e hL hc]
      exact ⟨⟨_, rfl⟩, fun _ => rfl⟩

/-- Witness of C15 (amended): a failed login without second factor. -/
theorem C15_session_always_returned_witness :
    ∃ s, (NewWithPasswordAndMFA sampleHost
      (sampleRemote [] false none (some (GoError.Remote "HTTP 401 Unauthorized".toList))
        ([], none))
      "agent/1.0".toList "user".toList "pass".toList "123456".toList).s = some s ∧
      s.UserAgent = "agent/1.0".toList ∧ s.Token = [] :=
  ⟨_, (C15_session_always_returned sampleHost
      (sampleRemote [] false none (some (GoError.Remote "HTTP 401 Unauthorized".toList))
        ([], none))
      "agent/1.0".toList "user".toList "pass".toList "123456".toList [] _ _ _ rfl).2.2.2
      (by intro h0; injection h0), rfl, rfl⟩

/-- C16: `createEmptySession(userAgent)` has `StateEnabled`, `Compress` and
`ShouldReconnectOnError` true, `ShardID` 0, `ShardCount` 1, `MaxRestRetries`
3, the given `UserAgent`, a client timeout of 20 seconds, an empty `Token`,
`MFA` false, and an identify payload with `Compress` true, `LargeThreshold`
250, `GuildSubscriptions` true, browser `Firefox`, the host operating system
and the intents `MakeIntent(IntentsAll)`. -/
theorem C16_empty_session_defaults (h : Host) (userAgent : GoString) :
    (createEmptySession h userAgent).StateEnabled = true ∧
    (createEmptySession h userAgent).Compress = true ∧
    (createEmptySession h userAgent).ShouldReconnectOnError = true ∧
    (createEmptySession h userAgent).ShardID = 0 ∧
    (createEmptySession h userAgent).ShardCount = 1 ∧
    (createEmptySession h userAgent).MaxRestRetries = 3 ∧
    (createEmptySession h userAgent).UserAgent = userAgent ∧
    (createEmptySession h userAgent).ClientTimeout = 20 ∧
    (createEmptySession h userAgent).Token = [] ∧
    (createEmptySession h userAgent).MFA = false ∧
    (createEmptySession h userAgent).Identify.Compress = true ∧
    (createEmptySession h userAgent).Identify.LargeThreshold = 250 ∧
    (createEmptySession h userAgent).Identify.GuildSubscriptions = true ∧
    (createEmptySession h userAgent).Identify.Properties.Browser = "Firefox".toList ∧
    (createEmptySession h userAgent).Identify.Properties.OS = h.GOOS ∧
    (createEmptySession h userAgent).Identify.Intents = MakeIntent h.IntentsAll :=
  ⟨rfl, rfl, rfl, rfl, rfl, rfl, rfl, rfl, rfl, rfl, rfl, rfl, rfl, rfl, rfl, rfl⟩

/-- C17: when the trimmed raw token does not begin, ignoring case, with `bot`,
`NewWithToken` stores exactly the trimmed raw token as `Token` and as
`Identify.Token`; the raw token is the stored one with white space, and only
white space, before and after it. -/
theorem C17_plain_token_only_trimmed (h : Host) (userAgent token : GoString)
    (hb : beginsWithBot (TrimSpace token) = false) :
    ∃ s, (NewWithToken h userAgent token).s = some s ∧
      s.Token = TrimSpace token ∧ s.Identify.Token = TrimSpace token ∧
      ∃ before after, token = before ++ s.Token ++ after ∧
        (∀ c ∈ before, IsSpace c = true) ∧ (∀ c ∈ after, IsSpace c = true) := by
  have hc : canonicalToken h token = TrimSpace token := by
    rw [canonicalToken_eq, hb]
    rfl
  refine ⟨_, by rw [NewWithToken_eq], hc, hc, ?_⟩
  refine ⟨token.takeWhile IsSpace, (TrimLeftSpace token).rtakeWhile IsSpace, ?_, ?_, ?_⟩
  · show token = _ ++ canonicalToken h token ++ _
    rw [hc]
    exact TrimSpace_decomp token
  · intro c hmem
    exact List.mem_takeWhile_imp hmem
  · intro c hmem
    exact List.mem_rtakeWhile_imp hmem

/-- Witness of C17 at a user token pasted with surrounding white space. -/
theorem C17_plain_token_only_trimmed_witness :
    ∃ s, (NewWithToken sampleHost "agent/1.0".toList " \tNzk.aBc dEf\n".toList).s = some s ∧
      s.Token = "Nzk.aBc dEf".toList ∧ s.Identify.Token = "Nzk.aBc dEf".toList := by
  obtain ⟨s, h1, h2, h3, _⟩ := C17_plain_token_only_trimmed sampleHost "agent/1.0".toList
    " \tNzk.aBc dEf\n".toList (by decide)
  exact ⟨s, h1, h2.trans (by decide), h3.trans (by decide)⟩

/-- C18: `NewWithPasswordAndMFA` called with an empty code behaves as
`NewWithPassword`: for every login outcome the two return the same session,
the same error and make the same remote calls, namely the login alone (no
second-factor exchange). -/
theorem C18_empty_code_is_password_flow (h : Host) (r : Remote)
    (userAgent username password : GoString) :
    NewWithPasswordAndMFA h r userAgent username password [] =
      NewWithPassword h r userAgent username password ∧
    (NewWithPasswordAndMFA h r userAgent username password []).s =
      (NewWithPassword h r userAgent username password).s ∧
    (NewWithPasswordAndMFA h r userAgent username password []).err =
      (NewWithPassword h r userAgent username password).err ∧
    (NewWithPassword h r userAgent username password).calls =
      [RemoteCall.Login username password] ∧
    (NewWithPasswordAndMFA h r userAgent username password []).calls =
      [RemoteCall.Login username password] := by
  have e := NewWithPasswordAndMFA_empty_code h r userAgent username password
  have c := NewWithPassword_calls h r userAgent username password
  exact ⟨e, by rw [e], by rw [e], c, by rw [e, c]⟩

/-- C19: whenever the lower-cased trimmed token begins with `bot`, the trimmed
token has at least three code points, so `[]rune(token)[3:]` in `NewWithToken`
is within bounds (and lower-casing keeps the number of code points). -/
theorem C19_slice_in_bounds (h : Host) (token : GoString)
    (hb : HasPrefix (ToLower h.caseTable (TrimSpace token)) "bot".toList = true) :
    3 ≤ (TrimSpace token).length ∧
    (ToLower h.caseTable (TrimSpace token)).length = (TrimSpace token).length ∧
    ((TrimSpace token).drop 3).length + 3 = (TrimSpace token).length := by
  have h3 : 3 ≤ (TrimSpace token).length := hasBotMarker_length h _ hb
  refine ⟨h3, by simp [ToLower], ?_⟩
  rw [List.length_drop]
  omega

/-- Witness of C19 at the shortest marked token. -/
theorem C19_slice_in_bounds_witness :
    3 ≤ (TrimSpace " BoT ".toList).length :=
  (C19_slice_in_bounds sampleHost " BoT ".toList (by decide)).1

/-- C20: the session returned by `NewWithToken` has `MFA` true exactly when
the stored token begins with the lower-case letters `mfa`, that is, when the
trimmed raw token is not bot-marked and begins with `mfa` in exactly this
case; the flag is false for every bot token and for a token that begins with
`MFA`. -/
theorem C20_mfa_flag_from_token (h : Host) (userAgent token : GoString) :
    ∃ s, (NewWithToken h userAgent token).s = some s ∧
      (s.MFA = true ↔ HasPrefix s.Token "mfa".toList = true) ∧
      (s.MFA = true ↔
        (beginsWithBot (TrimSpace token) = false ∧
          HasPrefix (TrimSpace token) "mfa".toList = true)) ∧
      (beginsWithBot (TrimSpace token) = true → s.MFA = false) ∧
      (HasPrefix (TrimSpace token) "MFA".toList = true → s.MFA = false) := by
  refine ⟨_, by rw [NewWithToken_eq], Iff.rfl, ?_, ?_, ?_⟩
  · show HasPrefix (canonicalToken h token) "mfa".toList = true ↔ _
    rw [canonicalToken_mfa]
    constructor
    · intro hm
      refine ⟨?_, hm⟩
      cases hb : beginsWithBot (TrimSpace token) with
      | false => rfl
      | true =>
        rw [beginsWithBot_not_mfa _ hb] at hm
        exact absurd hm (by decide)
    · exact fun hm => hm.2
  · intro hb
    show HasPrefix (canonicalToken h token) "mfa".toList = false
    rw [canonicalToken_mfa]
    exact beginsWithBot_not_mfa _ hb
  · intro hM
    show HasPrefix (canonicalToken h token) "mfa".toList = false
    rw [canonicalToken_mfa]
    have e1 : "MFA".toList = ['M', 'F', 'A'] := rfl
    have e2 : "mfa".toList = ['m', 'f', 'a'] := rfl
    rw [e1] at hM
    rw [e2]
    cases ht : TrimSpace token with
    | nil => rfl
    | cons a rest =>
      rw [ht] at hM
      simp only [HasPrefix, List.isPrefixOf, Bool.and_eq_true, beq_iff_eq] at hM
      simp only [HasPrefix, List.isPrefixOf, Bool.and_eq_false_imp, beq_iff_eq]
      intro hm
      rw [← hM.1] at hm
      exact absurd hm (by decide)

end Discordgo
